import Mathlib

/-!
Verification of the `@rcsb/search-request-tools` npm module (files `index.js`
and the later revision shipped alongside it).  The module mutates a Search API
request object: a tree of `terminal` and `group` nodes.  We give a shallow
embedding of its data model and of its two public operations `addRefinement`
and `addRefinements`, together with the private helpers `getGroupNode`,
`getEmptyGroupNode`, `getTerminalNode`, `setAttributeNode` and
`setFacetFilterAttributeNode`, and prove the spec's claims about them.

Modelling conventions used throughout:
* JavaScript objects are modelled as Lean values; in-place mutation through a
  reference obtained from `getGroupNode` is modelled by rebuilding the parent
  with the mutated child written back at the position the reference pointed to
  (`setLastLabeled` below).  One claim (the facet-filter aliasing claim) is
  about reference identity itself and is settled in a small explicit-heap
  model of JavaScript objects at the end of the file.
* JavaScript numbers produced by `parseFloat` on the decimal strings this
  module receives are modelled as exact decimals `mantissa / 10 ^ exp10`
  (canonical: the mantissa is not divisible by 10 unless the exponent is 0);
  a failed parse is the separate value `JSNum.nan`, and, as in JavaScript,
  `NaN` is strictly equal to nothing, itself included.
* A `TypeError` (reading a property of `undefined`, calling `push` on
  `undefined`) is modelled by returning `none` from the operation.
* The JS field named `attribute` is called `attr` here (`attribute` is a Lean
  keyword); all other field names are kept.
-/

/-- JavaScript number as produced by `parseFloat` on the decimal strings this
module handles: the exact decimal `mantissa / 10 ^ exp10` in canonical form,
or `NaN` for a failed parse. -/
inductive JSNum where
  | num (mantissa : Int) (exp10 : Nat)
  | nan
deriving DecidableEq, Repr

/-- Value stored in a terminal node's `parameters.value`: a raw string, a
number, a numeric range object, or a date range object (the two range shapes
built by `setAttributeNode`). -/
inductive Value where
  | str (s : String)
  | num (n : JSNum)
  | numRange (lo hi : JSNum) (includeLower includeUpper : Bool)
  | dateRange (lo hi : String) (includeLower includeUpper : Bool)
deriving DecidableEq, Repr

/-- JS strict equality (`===`) on `parameters.value`, as used by the duplicate
scan in `addRefinement`: string and number primitives compare by value, `NaN`
is equal to nothing (itself included), and two distinct object literals (the
range shapes) are never identical. -/
def Value.strictEq : Value → Value → Bool
  | .str a, .str b => a == b
  | .num (.num m1 e1), .num (.num m2 e2) => m1 == m2 && e1 == e2
  | _, _ => false

/-- The `parameters` object of a terminal node (`attr` models the JS field
`attribute`, a Lean keyword). -/
structure Params where
  attr : String
  operator : String
  value : Value
deriving DecidableEq, Repr

/-- A Search API query node: `type: 'terminal'` with a service and parameters,
or `type: 'group'` with an optional label, a `logical_operator` and a list of
child nodes (`label` is absent on JS terminals and on groups built by
`getEmptyGroupNode(null, op)`). -/
inductive Node where
  | terminal (service : String) (parameters : Params)
  | group (label : Option String) (logicalOperator : String) (nodes : List Node)

/-- The request object handed to the public functions; only its `query` field
is touched by this module. -/
structure Request where
  query : Node

/-- One element of the `refinements` argument of `addRefinements`:
an attribute name and its list of raw string values. -/
structure Refinement where
  attr : String
  values : List String

/-- Reading `.label` off a node: JS terminals have no `label` property
(`undefined`), groups may carry one. -/
def nodeLabel : Node → Option String
  | .terminal _ _ => none
  | .group l _ _ => l

/-- Numeric value of a list of decimal digit characters. -/
def digitsVal (ds : List Char) : Nat :=
  ds.foldl (fun a c => a * 10 + (c.toNat - 48)) 0

/-- Canonicalize a decimal `m / 10 ^ e` by removing factors of 10 shared by
mantissa and exponent, so that equal JS numbers get equal representations. -/
def stripZeros (m : Int) : Nat → Int × Nat
  | 0 => (m, 0)
  | Nat.succ e => if m % 10 == 0 then stripZeros (m / 10) e else (m, Nat.succ e)

/-- JS `parseFloat` restricted to the shapes this module feeds it: an optional
sign, an integer part, an optional `.` fraction part; trailing characters are
ignored and anything with no leading digits at all (for example `*`, `""`, or
`parseFloat(undefined)`) gives `NaN`. -/
def parseFloatJs (s : String) : JSNum :=
  let p := match s.data with
    | '-' :: rest => ((-1 : Int), rest)
    | '+' :: rest => ((1 : Int), rest)
    | cs => ((1 : Int), cs)
  let d1 := p.2.takeWhile (fun c => c.isDigit)
  let r1 := p.2.dropWhile (fun c => c.isDigit)
  let d2 := match r1 with
    | '.' :: r => r.takeWhile (fun c => c.isDigit)
    | _ => []
  if d1.isEmpty && d2.isEmpty then JSNum.nan
  else
    let m : Int := p.1 * ((digitsVal d1 : Int) * (10 : Int) ^ d2.length + (digitsVal d2 : Int))
    let c := stripZeros m d2.length
    JSNum.num c.1 c.2

/-- JS `parseInt` restricted to the year strings this module feeds it:
optional sign then leading digits; no digits gives `NaN` (`none`). -/
def parseIntJs (s : String) : Option Int :=
  let p := match s.data with
    | '-' :: rest => ((-1 : Int), rest)
    | '+' :: rest => ((1 : Int), rest)
    | cs => ((1 : Int), cs)
  let d := p.2.takeWhile (fun c => c.isDigit)
  if d.isEmpty then none else some (p.1 * digitsVal d)

/-- The string JS builds for `(parseInt(value) + 4)` when concatenated with a
string: the decimal rendering of the sum, or `"NaN"` when the parse failed. -/
def intPlus4Str (value : String) : String :=
  match parseIntJs value with
  | some n => toString (n + 4)
  | none => "NaN"

/-- Helper for `value.split('-')` (JS `String.prototype.split` with the
one-character separator used by `setAttributeNode`). -/
def splitDashAux : List Char → List Char → List String
  | [], acc => [⟨acc.reverse⟩]
  | c :: rest, acc =>
    if c = '-' then ⟨acc.reverse⟩ :: splitDashAux rest []
    else splitDashAux rest (c :: acc)

/-- JS `value.split('-')`. -/
def splitDash (s : String) : List String := splitDashAux s.data []

/-- JS `value.indexOf('*') === 0`. -/
def startsWithStar (s : String) : Bool :=
  match s.data with
  | '*' :: _ => true
  | _ => false

/-- Helper scanning for an adjacent `-*` pair. -/
def containsDashStarAux : List Char → Bool
  | '-' :: '*' :: _ => true
  | _ :: rest => containsDashStarAux rest
  | [] => false

/-- JS `value.indexOf('-*') !== -1`. -/
def containsDashStar (s : String) : Bool := containsDashStarAux s.data

/-- The body of the `values.forEach` loop of `setAttributeNode`: turns one raw
string value for an attribute into the `(operator, value)` pair of the
terminal node to be pushed.  Mirrors the three-way attribute dispatch of the
source: the fixed numeric attribute set, the fixed date attribute set, and
the exact-match fallback. -/
def normalizeOpValue (attr value : String) : String × Value :=
  if attr = "rcsb_entry_info.resolution_combined" ∨
      attr = "chem_comp.formula_weight" ∨
      attr = "rcsb_chem_comp_info.atom_count_heavy" then
    let arr := splitDash value
    if startsWithStar value then
      ("less", Value.num (parseFloatJs (arr.getD 1 "")))
    else if containsDashStar value then
      ("greater_or_equal", Value.num (parseFloatJs (arr.getD 0 "")))
    else
      ("range", Value.numRange (parseFloatJs (arr.getD 0 ""))
        (parseFloatJs (arr.getD 1 "")) true false)
  else if attr = "rcsb_accession_info.initial_release_date" ∨
      attr = "rcsb_chem_comp_info.initial_release_date" then
    ("range", Value.dateRange (value ++ "-01-01") (intPlus4Str value ++ "-12-31") true true)
  else
    ("exact_match", Value.str value)

/-- `getTerminalNode(service, parameters)` from the source. -/
def getTerminalNode (service : String) (parameters : Params) : Node :=
  .terminal service parameters

/-- `node.nodes.push(child)` on a group node; the source only ever pushes onto
group nodes (pushing onto a terminal would be a `TypeError`, modelled at the
call sites that can reach it). -/
def pushChild (parent : Node) (child : Node) : Node :=
  match parent with
  | .group l op ns => .group l op (ns ++ [child])
  | t => t

/-- `setAttributeNode(service, attributeNode, refinement)`: for each raw value
push a terminal node with the normalized operator/value pair onto the
attribute node. -/
def setAttributeNode (service : String) (attributeNode : Node) (r : Refinement) : Node :=
  r.values.foldl
    (fun an value =>
      let ov := normalizeOpValue r.attr value
      pushChild an (getTerminalNode service ⟨r.attr, ov.1, ov.2⟩))
    attributeNode

/-- `getEmptyGroupNode(label, logical_operator)` from the source: an empty
group; the label property is only set when the label is truthy (so `null` and
the empty string both leave it unset). -/
def getEmptyGroupNode (label : Option String) (logicalOperator : String) : Node :=
  .group (if label = some "" then none else label) logicalOperator []

/-- The scan loop of `getGroupNode`: `for i in 0..n, if nodes[i].label ===
label then groupNode = nodes[i]` keeps overwriting `groupNode`, so the child
that survives is the LAST one in sequence order whose label matches. -/
def findLabeled (ns : List Node) (label : String) : Option Node :=
  match ns with
  | [] => none
  | n :: rest =>
    match findLabeled rest label with
    | some g => some g
    | none => if nodeLabel n = some label then some n else none

/-- Write-back of a mutation performed through the reference `getGroupNode`
returned: replace the last child whose label matches (the one the scan loop
returned) by the mutated node. -/
def setLastLabeled (ns : List Node) (label : String) (x : Node) : List Node :=
  match ns with
  | [] => []
  | n :: rest =>
    if (findLabeled rest label).isSome then n :: setLastLabeled rest label x
    else if nodeLabel n = some label then x :: rest
    else n :: rest

/-- `getGroupNode(node, label, operator)` from the source, as a function from
the parent to the returned group (`none` models the `undefined` returned for
a non-group parent) together with the parent after the possible append of a
freshly created group. -/
def getGroupNode (node : Node) (label : String) (operator : String) :
    Option Node × Node :=
  match node with
  | .group l lop ns =>
    match findLabeled ns label with
    | some g => (some g, .group l lop ns)
    | none =>
      let g := getEmptyGroupNode (some label) operator
      (some g, .group l lop (ns ++ [g]))
  | t => (none, t)

/-- Composition pattern of the source: obtain a child group through
`getGroupNode(parent, label, operator)` and then mutate it in place through
the returned reference (an `Option`-valued mutation, since the mutations of
`addRefinement` can throw).  Stated on the child list of the parent group. -/
def updateGroupChildrenM (ns : List Node) (label operator : String)
    (f : Node → Option Node) : Option (List Node) :=
  match findLabeled ns label with
  | some g => (f g).map (setLastLabeled ns label)
  | none => (f (getEmptyGroupNode (some label) operator)).map (fun g2 => ns ++ [g2])

/-- Same composition pattern with a mutation that cannot throw (used by
`addRefinements`, whose per-refinement processing is total). -/
def updateGroupChildren (ns : List Node) (label operator : String)
    (f : Node → Node) : List Node :=
  match findLabeled ns label with
  | some g => setLastLabeled ns label (f g)
  | none => ns ++ [f (getEmptyGroupNode (some label) operator)]

/-- `getGroupNode` lifted to a whole parent node; `none` models the JS
`TypeError` raised as soon as the `undefined` returned for a non-group parent
is used. -/
def withGroupNodeM (parent : Node) (label operator : String)
    (f : Node → Option Node) : Option Node :=
  match parent with
  | .group l lop ns => (updateGroupChildrenM ns label operator f).map (.group l lop ·)
  | _ => none

/-- The `nestedAttribute` record of a registered attribute
(`attr` models the JS field `attribute`). -/
structure NestedAttr where
  attr : String

/-- A `uiAttrMap` entry of the ambient `metadata` global, restricted to the
only field this module reads. -/
structure AttrObj where
  nestedAttribute : Option NestedAttr

/-- One schema's entry of the ambient `metadata` global: the attribute map
and the facet-filter table, both as partial lookups (`none` models a missing
key, i.e. `undefined`). -/
structure SchemaMetadata where
  uiAttrMap : String → Option AttrObj
  facetFilters : String → Option Node

/-- The ambient `metadata` global the source reads
(`metadata[schema].uiAttrMap`, `metadata[schema].facetFilters`); total in the
schema key, as the source assumes every schema it is called with is
registered. -/
def Metadata : Type := String → SchemaMetadata

/-- The condition of `addRefinement`'s tagging line
`attrObj && attrObj.nestedAttribute && attrObj.nestedAttribute.attribute ===
nested_attribute`. -/
def nestedTagCond (md : Metadata) (schema attr nestedAttr : String) : Bool :=
  match (md schema).uiAttrMap attr with
  | some attrObj =>
    match attrObj.nestedAttribute with
    | some na => na.attr == nestedAttr
    | none => false
  | none => false

/-- `node.label = 'nested-attribute'` on the incoming group node (the source
only assigns labels to group nodes). -/
def setNodeLabel (n : Node) (lab : String) : Node :=
  match n with
  | .group _ op ns => .group (some lab) op ns
  | t => t

/-- Reading `n.parameters` off an attribute-group child during the duplicate
scan; a group child has no `parameters` (so the JS scan would throw). -/
def termParams? : Node → Option Params
  | .terminal _ p => some p
  | _ => none

/-- Reading `n.nodes[0].parameters` (the nested-pair case of the duplicate
scan and the destructuring at the top of `addRefinement`'s group branch);
`none` models the `TypeError` of reading `parameters` off `undefined` or off
a group. -/
def firstTermParams? : Node → Option Params
  | .group _ _ (.terminal _ p :: _) => some p
  | _ => none

/-- Reading `node.nodes[1].parameters.attribute` for the nested-attribute
check; `none` models the `TypeError` when the second child is missing or not
a terminal. -/
def secondTermAttr? : Node → Option String
  | .group _ _ (_ :: .terminal _ p :: _) => some p.attr
  | _ => none

/-- The terminal branch of `addRefinement`: scan the attribute node's children
for one whose `parameters.value` is strictly equal to the new value; push the
node only when no match was found. -/
def insertTerminalIntoAttributeNode (node : Node) (value : Value)
    (attributeNode : Node) : Option Node :=
  match attributeNode with
  | .group al aop ans =>
    match ans.mapM (fun n => (termParams? n).map (fun p => p.value)) with
    | none => none
    | some vs =>
      if vs.any (fun w => Value.strictEq w value) then some (.group al aop ans)
      else some (.group al aop (ans ++ [node]))
  | _ => none

/-- The group (nested-attribute pair) branch of `addRefinement`: scan the
children's `nodes[0].parameters.value`; when no match is found, look up the
attribute metadata, tag the incoming group with the `nested-attribute` label
when the registered relation targets `node.nodes[1].parameters.attribute`,
and push it either way. -/
def insertGroupIntoAttributeNode (md : Metadata) (schema : String) (node : Node)
    (attr : String) (value : Value) (attributeNode : Node) : Option Node :=
  match attributeNode with
  | .group al aop ans =>
    match ans.mapM (fun n => (firstTermParams? n).map (fun p => p.value)) with
    | none => none
    | some vs =>
      if vs.any (fun w => Value.strictEq w value) then some (.group al aop ans)
      else
        match secondTermAttr? node with
        | none => none
        | some nestedAttr =>
          some (.group al aop (ans ++
            [if nestedTagCond md schema attr nestedAttr
             then setNodeLabel node "nested-attribute" else node]))
  | _ => none

/-- Lines of `addRefinement` below the refinements-group lookup: dispatch on
the node's type, find-or-create the attribute-labeled OR-group under the
refinements group and insert with deduplication. -/
def insertIntoRefinementNode (md : Metadata) (schema : String) (node : Node)
    (refinementNode : Node) : Option Node :=
  match node with
  | .terminal sv p =>
    withGroupNodeM refinementNode p.attr "or"
      (insertTerminalIntoAttributeNode (.terminal sv p) p.value)
  | .group gl gop gns =>
    match firstTermParams? (.group gl gop gns) with
    | none => none
    | some p =>
      withGroupNodeM refinementNode p.attr "or"
        (insertGroupIntoAttributeNode md schema (.group gl gop gns) p.attr p.value)

/-- `refinementNode = getGroupNode(serviceNode, LABEL_GROUPS_REFINEMENTS, AND)`
followed by the insertion into it. -/
def insertIntoServiceNode (md : Metadata) (schema : String) (node : Node)
    (serviceNode : Node) : Option Node :=
  withGroupNodeM serviceNode "groups-refinements" "and"
    (insertIntoRefinementNode md schema node)

/-- `addRefinement(request, node, schema, service)` from the source.  A bare
terminal root is wrapped: the query becomes a fresh unlabeled AND-group, the
service group is created inside it, and the extracted terminal is wrapped in
a fresh inner AND-group pushed under the service group; a group root is
navigated through `getGroupNode`.  `none` models a thrown `TypeError`. -/
def addRefinement (r : Request) (node : Node) (md : Metadata)
    (schema service : String) : Option Request :=
  match r.query with
  | .terminal ts tp =>
    let innerGroupNode := pushChild (getEmptyGroupNode none "and") (.terminal ts tp)
    let serviceNode := pushChild (getEmptyGroupNode (some service) "and") innerGroupNode
    (insertIntoServiceNode md schema node serviceNode).map
      (fun s => ⟨pushChild (getEmptyGroupNode none "and") s⟩)
  | .group l lop ns =>
    (updateGroupChildrenM ns service "and" (insertIntoServiceNode md schema node)).map
      (fun ns2 => ⟨.group l lop ns2⟩)

/-- The schema selected by `addRefinements` from its `result_type`. -/
def schemaOf (resultType : String) : String :=
  if resultType = "mol_definition" then "chemical" else "structure"

/-- The service selected by `addRefinements` from its `result_type`. -/
def serviceOf (resultType : String) : String :=
  if resultType = "mol_definition" then "text_chem" else "text"

/-- The per-value loop of `setFacetFilterAttributeNode`: a fresh unlabeled
AND-group holding the exact-match terminal and the facet filter, labeled
`nested-attribute` when the attribute's registered nested relation targets
the facet filter's own attribute (`none` models the `TypeError` of reading
`facetFilter.parameters` off a group-shaped filter). -/
def facetPairGroup (service attr value : String) (attrObj : Option AttrObj)
    (facetFilter : Node) : Option Node :=
  let base := [getTerminalNode service ⟨attr, "exact_match", Value.str value⟩, facetFilter]
  match attrObj with
  | some a =>
    match a.nestedAttribute with
    | some na =>
      match facetFilter with
      | .terminal _ fp =>
        some (.group (if na.attr == fp.attr then some "nested-attribute" else none)
          "and" base)
      | _ => none
    | none => some (.group none "and" base)
  | none => some (.group none "and" base)

/-- `setFacetFilterAttributeNode(schema, service, attributeNode, refinement)`
from the source: look the attribute's `attrObj` and facet filter up in the
metadata and push one pair group per raw value onto the attribute node.  The
`none` branch of the filter lookup is unreachable from `addRefinements`,
which only calls this when the lookup is truthy.  In this value-level model
the attached filter is the filter value itself; the sharing behaviour of the
copy made at the push site is settled separately in the heap model below. -/
def setFacetFilterAttributeNode (md : Metadata) (schema service : String)
    (attributeNode : Node) (r : Refinement) : Option Node :=
  let attrObj := (md schema).uiAttrMap r.attr
  match (md schema).facetFilters r.attr with
  | none => none
  | some facetFilter =>
    r.values.foldlM
      (fun an value => (facetPairGroup service r.attr value attrObj facetFilter).map
        (pushChild an))
      attributeNode

/-- The body of the `refinements.forEach` loop of `addRefinements`:
find-or-create the attribute-labeled OR-group under the batch container and
fill it through the facet-filter expander or the plain value normalizer,
according to `metadata[schema].facetFilters[attribute]`. -/
def processRefinement (md : Metadata) (schema service : String)
    (refinementNode : Node) (r : Refinement) : Option Node :=
  withGroupNodeM refinementNode r.attr "or"
    (fun attributeNode =>
      match (md schema).facetFilters r.attr with
      | some _ => setFacetFilterAttributeNode md schema service attributeNode r
      | none => some (setAttributeNode service attributeNode r))

/-- The batch container built by one `addRefinements` call: the fresh
unlabeled AND-group (`getEmptyGroupNode(null, AND)`) after the whole
`refinements.forEach` loop ran inside it. -/
def refinementGroupOf (md : Metadata) (schema service : String)
    (refs : List Refinement) : Option Node :=
  refs.foldlM (processRefinement md schema service) (getEmptyGroupNode none "and")

/-- `addRefinements(request, refinements, result_type)` from the source:
find-or-create the service group under the root, push a brand-new unlabeled
AND-group under it and fill that group from the refinements.  For a
non-group root `getGroupNode` returns `undefined` and the push onto
`serviceNode.nodes` throws before anything is inserted (`none`); the push of
the container happens before the loop in the source, so on a successful run
the final tree is the one with the fully filled container appended. -/
def addRefinements (r : Request) (refs : List Refinement) (md : Metadata)
    (resultType : String) : Option Request :=
  match r.query with
  | .terminal _ _ => none
  | .group l lop ns =>
    (refinementGroupOf md (schemaOf resultType) (serviceOf resultType) refs).map
      (fun g => ⟨.group l lop
        (updateGroupChildren ns (serviceOf resultType) "and" (fun sn => pushChild sn g))⟩)

/-- Children of the (last) `service`-labeled group under the root, the
container all refinement batches land in. -/
def serviceNodes (q : Node) (service : String) : List Node :=
  match q with
  | .group _ _ ns =>
    match findLabeled ns service with
    | some (.group _ _ cs) => cs
    | _ => []
  | _ => []

mutual

/-- Number of groups carrying a given label anywhere in a node. -/
def countLabeled : Node → String → Nat
  | .terminal _ _, _ => 0
  | .group lab _ ns, l => (if lab = some l then 1 else 0) + countLabeledList ns l

/-- Number of groups carrying a given label anywhere in a forest. -/
def countLabeledList : List Node → String → Nat
  | [], _ => 0
  | n :: rest, l => countLabeled n l + countLabeledList rest l

end

/-!
Explicit-heap model of JavaScript objects, used to settle the aliasing claim
about the facet-filter copy `Object.assign({}, facetFilter)` made in the
per-value loop of `setFacetFilterAttributeNode` (the revision that copies;
the `index.js` revision pushes the shared template itself with no copy at
all).  Objects live in a heap addressed by `Nat` references; an object is its
list of own fields, whose values are primitives or references. -/

/-- A JavaScript field value: a primitive (string) or an object reference. -/
inductive JsVal where
  | str (s : String)
  | ref (r : Nat)
deriving DecidableEq, Repr

/-- A JavaScript object: its own enumerable fields in insertion order. -/
abbrev JsObj : Type := List (String × JsVal)

/-- A heap of JavaScript objects addressed by allocation order. -/
structure JsHeap where
  objs : List JsObj

/-- Dereference (a dangling reference reads as the empty object; never hit by
the claims below). -/
def JsHeap.get (h : JsHeap) (r : Nat) : JsObj := h.objs.getD r []

/-- Allocate a fresh object, returning the new heap and its reference. -/
def JsHeap.alloc (h : JsHeap) (o : JsObj) : JsHeap × Nat :=
  (⟨h.objs ++ [o]⟩, h.objs.length)

/-- Overwrite (or add) one field of an object value. -/
def setKey (o : JsObj) (k : String) (v : JsVal) : JsObj :=
  if o.any (fun kv => kv.1 == k)
  then o.map (fun kv => if kv.1 == k then (k, v) else kv)
  else o ++ [(k, v)]

/-- Read one field of an object value (`none` is `undefined`). -/
def getKey (o : JsObj) (k : String) : Option JsVal :=
  match o.find? (fun kv => kv.1 == k) with
  | some kv => some kv.2
  | none => none

/-- `obj.field = v` through a reference. -/
def JsHeap.setField (h : JsHeap) (r : Nat) (k : String) (v : JsVal) : JsHeap :=
  ⟨h.objs.set r (setKey (h.objs.getD r []) k v)⟩

/-- `obj.field` through a reference. -/
def JsHeap.readField (h : JsHeap) (r : Nat) (k : String) : Option JsVal :=
  getKey (h.get r) k

/-- `obj.f1.f2` — read through one level of indirection. -/
def JsHeap.readField2 (h : JsHeap) (r : Nat) (k1 k2 : String) : Option JsVal :=
  match h.readField r k1 with
  | some (JsVal.ref r2) => h.readField r2 k2
  | _ => none

/-- `obj.f1.f2 = v` — write through one level of indirection (the identity
fallback is unreachable in the claims below, where `f1` is always a
reference). -/
def JsHeap.setField2 (h : JsHeap) (r : Nat) (k1 k2 : String) (v : JsVal) : JsHeap :=
  match h.readField r k1 with
  | some (JsVal.ref r2) => h.setField r2 k2 v
  | _ => h

/-- `Object.assign(..., src)` with an empty target: allocate a fresh object
carrying `src`'s own fields — a SHALLOW copy, so reference-valued fields
(such as the filter's `parameters`) still point at the shared objects. -/
def objectAssignEmpty (h : JsHeap) (src : Nat) : JsHeap × Nat :=
  h.alloc (h.get src)

/-- The two copies of the facet-filter template made by the per-value loop of
`setFacetFilterAttributeNode` for a refinement with two raw values: one
`Object.assign({}, facetFilter)` per value. -/
def facetFilterCopyPair (h : JsHeap) (ff : Nat) : JsHeap × Nat × Nat :=
  let a1 := objectAssignEmpty h ff
  let a2 := objectAssignEmpty a1.1 ff
  (a2.1, a1.2, a2.2)

/-- A metadata global with no registered attributes, used by concrete
witnesses that exercise the plain (non-facet, non-nested) paths. -/
def mdEmpty : Metadata := fun _ => ⟨fun _ => none, fun _ => none⟩

/-- A metadata global registering the nested-attribute relation of the
annotation-lineage attribute used in the source's own usage example. -/
def mdNested : Metadata := fun _ =>
  ⟨fun a =>
    if a = "rcsb_polymer_instance_annotation.annotation_lineage.id"
    then some ⟨some ⟨"rcsb_polymer_instance_annotation.type"⟩⟩
    else none,
   fun _ => none⟩

/-- A concrete two-object heap for the facet-filter copy counterexample:
object 0 is the filter's `parameters` object (`attribute: "a"`), object 1 is
the facet-filter template, whose `parameters` field is a reference to
object 0. -/
def facetFilterDemoHeap : JsHeap :=
  ⟨[[("attribute", JsVal.str "a")],
    [("type", JsVal.str "terminal"), ("parameters", JsVal.ref 0)]]⟩

/-!
Helper lemmas about the navigator primitives. -/

/-- Only groups carry labels: a node whose label reads as `some lab` is a
group labeled `lab`. -/
theorem nodeLabel_eq_some {n : Node} {lab : String} (h : nodeLabel n = some lab) :
    ∃ lop cs, n = .group (some lab) lop cs := by
  cases n with
  | terminal s p => simp [nodeLabel] at h
  | group l lop cs =>
    refine ⟨lop, cs, ?_⟩
    simp only [nodeLabel] at h
    rw [h]

/-- The node the scan loop returns carries the requested label. -/
theorem findLabeled_label {ns : List Node} {lab : String} {g : Node}
    (h : findLabeled ns lab = some g) : nodeLabel g = some lab := by
  induction ns with
  | nil => simp [findLabeled] at h
  | cons n rest ih =>
    simp only [findLabeled] at h
    cases hr : findLabeled rest lab with
    | some g2 =>
      rw [hr] at h
      injection h with h2
      subst h2
      exact ih hr
    | none =>
      rw [hr] at h
      by_cases hn : nodeLabel n = some lab
      · rw [if_pos hn] at h
        injection h with h2
        subst h2
        exact hn
      · rw [if_neg hn] at h
        cases h

/-- Writing the found node back unchanged leaves the list unchanged. -/
theorem setLastLabeled_self {ns : List Node} {lab : String} {g : Node}
    (h : findLabeled ns lab = some g) : setLastLabeled ns lab g = ns := by
  induction ns with
  | nil => rfl
  | cons n rest ih =>
    simp only [findLabeled] at h
    simp only [setLastLabeled]
    cases hr : findLabeled rest lab with
    | some g2 =>
      rw [hr] at h
      injection h with h2
      subst h2
      rw [ih hr]
      simp [hr]
    | none =>
      rw [hr] at h
      by_cases hn : nodeLabel n = some lab
      · rw [if_pos hn] at h
        injection h with h2
        subst h2
        simp [hr, hn]
      · rw [if_neg hn] at h
        cases h

/-- After writing a node with the requested label back at the found position,
the scan finds the written node. -/
theorem findLabeled_setLastLabeled {ns : List Node} {lab : String} {g y : Node}
    (h : findLabeled ns lab = some g) (hy : nodeLabel y = some lab) :
    findLabeled (setLastLabeled ns lab y) lab = some y := by
  induction ns with
  | nil => simp [findLabeled] at h
  | cons n rest ih =>
    simp only [findLabeled] at h
    simp only [setLastLabeled]
    cases hr : findLabeled rest lab with
    | some g2 =>
      rw [hr] at h
      injection h with h2
      subst h2
      simp only [hr, Option.isSome_some, if_true]
      simp only [findLabeled, ih hr]
    | none =>
      rw [hr] at h
      by_cases hn : nodeLabel n = some lab
      · simp only [hr, Option.isSome_none, Bool.false_eq_true, if_false, if_pos hn]
        simp [findLabeled, hr, hy]
      · rw [if_neg hn] at h
        cases h

/-- Scanning a list extended on the right: the appended node wins whenever it
matches (the loop keeps the LAST match). -/
theorem findLabeled_append (ns : List Node) (x : Node) (lab : String) :
    findLabeled (ns ++ [x]) lab
      = if nodeLabel x = some lab then some x else findLabeled ns lab := by
  induction ns with
  | nil =>
    by_cases hx : nodeLabel x = some lab <;> simp [findLabeled, hx]
  | cons n rest ih =>
    simp only [List.cons_append, findLabeled]
    by_cases hx : nodeLabel x = some lab
    · simp [ih, hx]
    · simp [ih, hx]

/-- The service string `addRefinements` computes is never empty. -/
theorem serviceOf_ne_empty (resultType : String) : serviceOf resultType ≠ "" := by
  unfold serviceOf
  split <;> decide

/-- C1.  For the attribute `rcsb_entry_info.resolution_combined` the value
normalizer (`setAttributeNode`) turns `*-0.5` into operator `less` with value
`0.5`, `0.5-1.0` into operator `range` with value
`(from 0.5, to 1.0, include_lower true, include_upper false)`, and `2.0-*`
into operator `greater_or_equal` with value `2.0` (numbers are the canonical
decimals `5/10^1`, `1/10^0`, `2/10^0`). -/
theorem c1_resolution_value_normalization :
    setAttributeNode "text"
        (Node.group (some "rcsb_entry_info.resolution_combined") "or" [])
        ⟨"rcsb_entry_info.resolution_combined", ["*-0.5", "0.5-1.0", "2.0-*"]⟩
      = Node.group (some "rcsb_entry_info.resolution_combined") "or"
          [ Node.terminal "text"
              ⟨"rcsb_entry_info.resolution_combined", "less", Value.num (JSNum.num 5 1)⟩
          , Node.terminal "text"
              ⟨"rcsb_entry_info.resolution_combined", "range",
                Value.numRange (JSNum.num 5 1) (JSNum.num 1 0) true false⟩
          , Node.terminal "text"
              ⟨"rcsb_entry_info.resolution_combined", "greater_or_equal",
                Value.num (JSNum.num 2 0)⟩ ] := by
  rfl

/-- C5.  For the date-range attribute `rcsb_accession_info.initial_release_date`
the value normalizer produces operator `range` with value
`(from value ++ "-01-01", to (parseInt value + 4) ++ "-12-31",
include_lower true, include_upper true)` for every raw year string, and in
particular input `2015` yields the window `2015-01-01 .. 2019-12-31`. -/
theorem c5_date_range_expansion :
    (∀ v : String,
      normalizeOpValue "rcsb_accession_info.initial_release_date" v
        = ("range", Value.dateRange (v ++ "-01-01") (intPlus4Str v ++ "-12-31") true true))
    ∧ normalizeOpValue "rcsb_accession_info.initial_release_date" "2015"
        = ("range", Value.dateRange "2015-01-01" "2019-12-31" true true) := by
  exact ⟨fun v => rfl, rfl⟩

/-- C9.  `getGroupNode` on a node that is not of variant group (a terminal)
mutates nothing and returns `undefined` (`none`): the parent comes back
unchanged and no group is found or created. -/
theorem c9_getGroupNode_non_group_noop (s : String) (p : Params)
    (label operator : String) :
    getGroupNode (Node.terminal s p) label operator = (none, Node.terminal s p) := by
  rfl

/-- C10.  `addRefinements` on a request whose query is a bare terminal fails
(`none`, the modelled `TypeError` of pushing onto the `undefined` service
node) without inserting anything, and the `getGroupNode` lookup that produced
the `undefined` left the terminal root untouched. -/
theorem c10_addRefinements_terminal_root_faults (s : String) (p : Params)
    (refs : List Refinement) (md : Metadata) (resultType : String) :
    addRefinements ⟨Node.terminal s p⟩ refs md resultType = none
    ∧ getGroupNode (Node.terminal s p) (serviceOf resultType) "and"
        = (none, Node.terminal s p) := by
  exact ⟨rfl, rfl⟩

/-- C7, counterexample.  On a parent with two children labeled `x`,
`getGroupNode` does NOT return the first matching child (it returns the last
one): the claim's "first match" reading is refuted at this input. -/
theorem c7_getGroupNode_first_match_cex :
    (getGroupNode
        (Node.group none "and"
          [Node.group (some "x") "or" [], Node.group (some "x") "and" []])
        "x" "and").fst
      = some (Node.group (some "x") "and" [])
    ∧ (getGroupNode
        (Node.group none "and"
          [Node.group (some "x") "or" [], Node.group (some "x") "and" []])
        "x" "and").fst
      ≠ some (Node.group (some "x") "or" []) := by
  constructor
  · rfl
  · intro h
    have h2 : Node.group (some "x") "and" ([] : List Node)
        = Node.group (some "x") "or" [] := by
      have h3 : (some (Node.group (some "x") "and" ([] : List Node)) : Option Node)
          = some (Node.group (some "x") "or" []) := h
      injection h3
    injection h2 with hl hop hns
    exact absurd hop (by decide)

/-- Scanning the concatenation of two child segments: the loop runs through
both, so a match in the later segment wins over any match in the earlier
one. -/
theorem findLabeled_append_seg (a b : List Node) (lab : String) :
    findLabeled (a ++ b) lab
      = match findLabeled b lab with
        | some g => some g
        | none => findLabeled a lab := by
  induction a with
  | nil =>
    cases hb : findLabeled b lab <;> simp [findLabeled, hb]
  | cons n rest ih =>
    cases hb : findLabeled b lab with
    | some g =>
      simp only [List.cons_append, findLabeled, List.append_eq, ih, hb]
    | none =>
      simp only [List.cons_append, findLabeled, List.append_eq, ih, hb]

/-- A child list in which no node carries the requested label scans to
nothing. -/
theorem findLabeled_eq_none {ns : List Node} {lab : String}
    (h : ∀ n ∈ ns, nodeLabel n ≠ some lab) : findLabeled ns lab = none := by
  induction ns with
  | nil => rfl
  | cons n rest ih =>
    simp only [findLabeled]
    rw [ih (fun m hm => h m (List.mem_cons_of_mem n hm)),
      if_neg (h n (List.mem_cons_self n rest))]

/-- C7, amended.  For every group parent whose child list decomposes as
`pre ++ x :: post` with `x` carrying the requested label and no child of
`post` carrying it — that is, `x` is the LAST matching child in sequence
order, with any number of duplicate-labeled siblings among `pre` and any
trailing non-matching siblings in `post` — `getGroupNode` returns `x`, and
appends or creates nothing (the parent is returned unchanged). -/
theorem c7_getGroupNode_returns_last_match (l : Option String)
    (lop label operator : String) (pre post : List Node) (x : Node)
    (hx : nodeLabel x = some label)
    (hpost : ∀ n ∈ post, nodeLabel n ≠ some label) :
    getGroupNode (Node.group l lop (pre ++ x :: post)) label operator
      = (some x, Node.group l lop (pre ++ x :: post)) := by
  have hfind : findLabeled (pre ++ x :: post) label = some x := by
    rw [findLabeled_append_seg]
    simp only [findLabeled, findLabeled_eq_none hpost, if_pos hx]
  simp [getGroupNode, hfind]

/-- Witness for `c7_getGroupNode_returns_last_match` at a parent with two
children labeled `x` followed by a trailing sibling labeled `y`: the second
`x`-child is returned even though it is not the final child. -/
theorem c7_witness :
    getGroupNode
        (Node.group none "and"
          ([Node.group (some "x") "or" []]
            ++ Node.group (some "x") "and" [] :: [Node.group (some "y") "and" []]))
        "x" "and"
      = (some (Node.group (some "x") "and" []),
         Node.group none "and"
           ([Node.group (some "x") "or" []]
             ++ Node.group (some "x") "and" [] :: [Node.group (some "y") "and" []])) := by
  exact c7_getGroupNode_returns_last_match none "and" "x" "and"
    [Node.group (some "x") "or" []] [Node.group (some "y") "and" []]
    (Node.group (some "x") "and" []) rfl (by decide)

/-- C2.  On a request already containing the service chain and an OR-group
for the attribute, `addRefinement` with a terminal node whose
`parameters.value` is strictly equal to the value of one of that group's
existing children inserts nothing: the whole request comes back exactly
unchanged, so in particular the attribute group's child count is unchanged
(idempotent merge, not an error). -/
theorem c2_addRefinement_duplicate_value_is_noop
    (l : Option String) (lop : String) (ns : List Node)
    (sop : String) (sns : List Node) (rop : String) (rns : List Node)
    (aop : String) (ans : List Node) (vs : List Value)
    (tsv : String) (p : Params) (md : Metadata) (schema service : String)
    (h1 : findLabeled ns service = some (Node.group (some service) sop sns))
    (h2 : findLabeled sns "groups-refinements"
        = some (Node.group (some "groups-refinements") rop rns))
    (h3 : findLabeled rns p.attr = some (Node.group (some p.attr) aop ans))
    (h4 : ans.mapM (fun n => (termParams? n).map (fun q => q.value)) = some vs)
    (h5 : vs.any (fun w => Value.strictEq w p.value) = true) :
    addRefinement ⟨Node.group l lop ns⟩ (Node.terminal tsv p) md schema service
      = some ⟨Node.group l lop ns⟩ := by
  have hA : insertTerminalIntoAttributeNode (Node.terminal tsv p) p.value
      (Node.group (some p.attr) aop ans) = some (Node.group (some p.attr) aop ans) := by
    simp only [insertTerminalIntoAttributeNode, h4, h5, if_true]
  have hR : insertIntoRefinementNode md schema (Node.terminal tsv p)
      (Node.group (some "groups-refinements") rop rns)
      = some (Node.group (some "groups-refinements") rop rns) := by
    simp only [insertIntoRefinementNode, withGroupNodeM, updateGroupChildrenM, h3, hA,
      Option.map_some', setLastLabeled_self h3]
  have hS : insertIntoServiceNode md schema (Node.terminal tsv p)
      (Node.group (some service) sop sns)
      = some (Node.group (some service) sop sns) := by
    simp only [insertIntoServiceNode, withGroupNodeM, updateGroupChildrenM, h2, hR,
      Option.map_some', setLastLabeled_self h2]
  simp only [addRefinement, updateGroupChildrenM, h1, hS, Option.map_some',
    setLastLabeled_self h1]

/-- Witness for `c2_addRefinement_duplicate_value_is_noop`: adding the
`exptl.method = ELECTRON MICROSCOPY` terminal a second time leaves the
request unchanged. -/
theorem c2_witness :
    addRefinement
        ⟨Node.group none "and"
          [Node.group (some "text") "and"
            [Node.group (some "groups-refinements") "and"
              [Node.group (some "exptl.method") "or"
                [Node.terminal "text"
                  ⟨"exptl.method", "exact_match", Value.str "ELECTRON MICROSCOPY"⟩]]]]⟩
        (Node.terminal "text"
          ⟨"exptl.method", "exact_match", Value.str "ELECTRON MICROSCOPY"⟩)
        mdEmpty "structure" "text"
      = some ⟨Node.group none "and"
          [Node.group (some "text") "and"
            [Node.group (some "groups-refinements") "and"
              [Node.group (some "exptl.method") "or"
                [Node.terminal "text"
                  ⟨"exptl.method", "exact_match", Value.str "ELECTRON MICROSCOPY"⟩]]]]⟩ := by
  exact c2_addRefinement_duplicate_value_is_noop none "and" _ "and" _ "and" _ "or" _
    [Value.str "ELECTRON MICROSCOPY"] "text"
    ⟨"exptl.method", "exact_match", Value.str "ELECTRON MICROSCOPY"⟩
    mdEmpty "structure" "text" rfl rfl rfl rfl rfl

/-- C3.  One `addRefinement` call on a request whose query is a bare terminal
re-roots the query into a group whose descendant chain contains exactly one
group labeled with the service key and exactly one group labeled
`groups-refinements`, with the original terminal wrapped unmodified in a
fresh unlabeled AND-group that is a sibling of the refinements group (the
container of the new attribute group). -/
theorem c3_addRefinement_terminal_root_normalization
    (ts : String) (tp : Params) (nsv : String) (np : Params)
    (md : Metadata) (schema service : String)
    (hsv : service ≠ "") (hsvr : service ≠ "groups-refinements")
    (ha : np.attr ≠ "") (har : np.attr ≠ "groups-refinements")
    (has : np.attr ≠ service) :
    addRefinement ⟨Node.terminal ts tp⟩ (Node.terminal nsv np) md schema service
      = some ⟨Node.group none "and"
          [Node.group (some service) "and"
            [Node.group none "and" [Node.terminal ts tp],
             Node.group (some "groups-refinements") "and"
               [Node.group (some np.attr) "or" [Node.terminal nsv np]]]]⟩
    ∧ countLabeled
        (Node.group none "and"
          [Node.group (some service) "and"
            [Node.group none "and" [Node.terminal ts tp],
             Node.group (some "groups-refinements") "and"
               [Node.group (some np.attr) "or" [Node.terminal nsv np]]]])
        service = 1
    ∧ countLabeled
        (Node.group none "and"
          [Node.group (some service) "and"
            [Node.group none "and" [Node.terminal ts tp],
             Node.group (some "groups-refinements") "and"
               [Node.group (some np.attr) "or" [Node.terminal nsv np]]]])
        "groups-refinements" = 1 := by
  refine ⟨?_, ?_, ?_⟩
  · simp [addRefinement, insertIntoServiceNode, insertIntoRefinementNode,
      insertTerminalIntoAttributeNode, withGroupNodeM, updateGroupChildrenM,
      getEmptyGroupNode, pushChild, findLabeled, nodeLabel, termParams?,
      List.mapM.loop, hsv, ha]
  · simp [countLabeled, countLabeledList, hsvr, has, Ne.symm hsvr, Ne.symm has]
  · simp [countLabeled, countLabeledList, hsvr, har, Ne.symm hsvr, Ne.symm har]

/-- Witness for `c3_addRefinement_terminal_root_normalization` with the
source's example terminal inserted into a bare-terminal request. -/
theorem c3_witness :
    addRefinement
        ⟨Node.terminal "text" ⟨"rcsb_entry_info.resolution_combined", "less",
          Value.num (JSNum.num 2 0)⟩⟩
        (Node.terminal "text" ⟨"exptl.method", "exact_match",
          Value.str "ELECTRON MICROSCOPY"⟩)
        mdEmpty "structure" "text"
      = some ⟨Node.group none "and"
          [Node.group (some "text") "and"
            [Node.group none "and"
              [Node.terminal "text" ⟨"rcsb_entry_info.resolution_combined", "less",
                Value.num (JSNum.num 2 0)⟩],
             Node.group (some "groups-refinements") "and"
               [Node.group (some "exptl.method") "or"
                 [Node.terminal "text" ⟨"exptl.method", "exact_match",
                   Value.str "ELECTRON MICROSCOPY"⟩]]]]⟩
    ∧ countLabeled
        (Node.group none "and"
          [Node.group (some "text") "and"
            [Node.group none "and"
              [Node.terminal "text" ⟨"rcsb_entry_info.resolution_combined", "less",
                Value.num (JSNum.num 2 0)⟩],
             Node.group (some "groups-refinements") "and"
               [Node.group (some "exptl.method") "or"
                 [Node.terminal "text" ⟨"exptl.method", "exact_match",
                   Value.str "ELECTRON MICROSCOPY"⟩]]]])
        "text" = 1
    ∧ countLabeled
        (Node.group none "and"
          [Node.group (some "text") "and"
            [Node.group none "and"
              [Node.terminal "text" ⟨"rcsb_entry_info.resolution_combined", "less",
                Value.num (JSNum.num 2 0)⟩],
             Node.group (some "groups-refinements") "and"
               [Node.group (some "exptl.method") "or"
                 [Node.terminal "text" ⟨"exptl.method", "exact_match",
                   Value.str "ELECTRON MICROSCOPY"⟩]]]])
        "groups-refinements" = 1 := by
  exact c3_addRefinement_terminal_root_normalization "text"
    ⟨"rcsb_entry_info.resolution_combined", "less", Value.num (JSNum.num 2 0)⟩
    "text" ⟨"exptl.method", "exact_match", Value.str "ELECTRON MICROSCOPY"⟩
    mdEmpty "structure" "text"
    (by decide) (by decide) (by decide) (by decide) (by decide)

/-- C8.  An `addRefinement` call with a group node (a nested-attribute pair of
two terminals) whose first value is not already present appends the incoming
group, and the group is tagged with the `nested-attribute` label if and only
if the registered metadata for the schema and attribute exists, declares a
nested-attribute relation, and that relation's target attribute equals
`node.nodes[1].parameters.attribute` (the condition `nestedTagCond`). -/
theorem c8_nested_attribute_tagging
    (ts : String) (tp : Params) (gop : String)
    (s1 s2 : String) (p1 p2 : Params) (md : Metadata) (schema service : String)
    (hsv : service ≠ "") (ha : p1.attr ≠ "") :
    addRefinement ⟨Node.terminal ts tp⟩
        (Node.group none gop [Node.terminal s1 p1, Node.terminal s2 p2])
        md schema service
      = some ⟨Node.group none "and"
          [Node.group (some service) "and"
            [Node.group none "and" [Node.terminal ts tp],
             Node.group (some "groups-refinements") "and"
               [Node.group (some p1.attr) "or"
                 [if nestedTagCond md schema p1.attr p2.attr
                  then Node.group (some "nested-attribute") gop
                    [Node.terminal s1 p1, Node.terminal s2 p2]
                  else Node.group none gop
                    [Node.terminal s1 p1, Node.terminal s2 p2]]]]]⟩
    ∧ (nodeLabel (if nestedTagCond md schema p1.attr p2.attr
          then Node.group (some "nested-attribute") gop
            [Node.terminal s1 p1, Node.terminal s2 p2]
          else Node.group none gop [Node.terminal s1 p1, Node.terminal s2 p2])
        = some "nested-attribute"
       ↔ nestedTagCond md schema p1.attr p2.attr = true) := by
  cases hc : nestedTagCond md schema p1.attr p2.attr with
  | true =>
    constructor
    · simp [addRefinement, insertIntoServiceNode, insertIntoRefinementNode,
        insertGroupIntoAttributeNode, withGroupNodeM, updateGroupChildrenM,
        getEmptyGroupNode, pushChild, findLabeled, nodeLabel, firstTermParams?,
        secondTermAttr?, setNodeLabel, List.mapM.loop, hsv, ha, hc]
    · simp [nodeLabel]
  | false =>
    constructor
    · simp [addRefinement, insertIntoServiceNode, insertIntoRefinementNode,
        insertGroupIntoAttributeNode, withGroupNodeM, updateGroupChildrenM,
        getEmptyGroupNode, pushChild, findLabeled, nodeLabel, firstTermParams?,
        secondTermAttr?, setNodeLabel, List.mapM.loop, hsv, ha, hc]
    · simp [nodeLabel]

/-- Witness for `c8_nested_attribute_tagging`: the source's CATH example pair
is tagged under a metadata global registering the relation, and the tag
condition holds there. -/
theorem c8_witness :
    addRefinement ⟨Node.terminal "text" ⟨"exptl.method", "exact_match",
        Value.str "X-RAY DIFFRACTION"⟩⟩
        (Node.group none "and"
          [Node.terminal "text"
            ⟨"rcsb_polymer_instance_annotation.annotation_lineage.id",
              "exact_match", Value.str "2"⟩,
           Node.terminal "text"
            ⟨"rcsb_polymer_instance_annotation.type", "exact_match", Value.str "CATH"⟩])
        mdNested "structure" "text"
      = some ⟨Node.group none "and"
          [Node.group (some "text") "and"
            [Node.group none "and"
              [Node.terminal "text" ⟨"exptl.method", "exact_match",
                Value.str "X-RAY DIFFRACTION"⟩],
             Node.group (some "groups-refinements") "and"
               [Node.group (some "rcsb_polymer_instance_annotation.annotation_lineage.id") "or"
                 [if nestedTagCond mdNested "structure"
                      "rcsb_polymer_instance_annotation.annotation_lineage.id"
                      "rcsb_polymer_instance_annotation.type"
                  then Node.group (some "nested-attribute") "and"
                    [Node.terminal "text"
                      ⟨"rcsb_polymer_instance_annotation.annotation_lineage.id",
                        "exact_match", Value.str "2"⟩,
                     Node.terminal "text"
                      ⟨"rcsb_polymer_instance_annotation.type", "exact_match",
                        Value.str "CATH"⟩]
                  else Node.group none "and"
                    [Node.terminal "text"
                      ⟨"rcsb_polymer_instance_annotation.annotation_lineage.id",
                        "exact_match", Value.str "2"⟩,
                     Node.terminal "text"
                      ⟨"rcsb_polymer_instance_annotation.type", "exact_match",
                        Value.str "CATH"⟩]]]]]⟩
    ∧ (nodeLabel (if nestedTagCond mdNested "structure"
            "rcsb_polymer_instance_annotation.annotation_lineage.id"
            "rcsb_polymer_instance_annotation.type"
          then Node.group (some "nested-attribute") "and"
            [Node.terminal "text"
              ⟨"rcsb_polymer_instance_annotation.annotation_lineage.id",
                "exact_match", Value.str "2"⟩,
             Node.terminal "text"
              ⟨"rcsb_polymer_instance_annotation.type", "exact_match", Value.str "CATH"⟩]
          else Node.group none "and"
            [Node.terminal "text"
              ⟨"rcsb_polymer_instance_annotation.annotation_lineage.id",
                "exact_match", Value.str "2"⟩,
             Node.terminal "text"
              ⟨"rcsb_polymer_instance_annotation.type", "exact_match", Value.str "CATH"⟩])
        = some "nested-attribute"
       ↔ nestedTagCond mdNested "structure"
          "rcsb_polymer_instance_annotation.annotation_lineage.id"
          "rcsb_polymer_instance_annotation.type" = true) := by
  exact c8_nested_attribute_tagging "text"
    ⟨"exptl.method", "exact_match", Value.str "X-RAY DIFFRACTION"⟩ "and"
    "text" "text"
    ⟨"rcsb_polymer_instance_annotation.annotation_lineage.id", "exact_match", Value.str "2"⟩
    ⟨"rcsb_polymer_instance_annotation.type", "exact_match", Value.str "CATH"⟩
    mdNested "structure" "text" (by decide) (by decide)

/-- A successful `getGroupNode`-then-mutate on a group keeps the group's own
label and operator. -/
theorem withGroupNodeM_shape {l : Option String} {lop : String} {ns : List Node}
    {lab op : String} {f : Node → Option Node} {q : Node}
    (h : withGroupNodeM (Node.group l lop ns) lab op f = some q) :
    ∃ ns2, q = Node.group l lop ns2 := by
  simp only [withGroupNodeM] at h
  rcases Option.map_eq_some'.mp h with ⟨ns2, _, hq⟩
  exact ⟨ns2, hq.symm⟩

/-- Processing one refinement inside the batch container keeps the
container's label and operator. -/
theorem processRefinement_shape {md : Metadata} {schema service : String}
    {l : Option String} {lop : String} {ns : List Node} {r : Refinement} {q : Node}
    (h : processRefinement md schema service (Node.group l lop ns) r = some q) :
    ∃ ns2, q = Node.group l lop ns2 := by
  simp only [processRefinement] at h
  exact withGroupNodeM_shape h

/-- The batch container built by `addRefinements` is always an unlabeled
AND-group. -/
theorem refinementGroupOf_shape {md : Metadata} {schema service : String}
    {refs : List Refinement} {g : Node}
    (h : refinementGroupOf md schema service refs = some g) :
    ∃ cs, g = Node.group none "and" cs := by
  have H : ∀ (ns0 : List Node) (g2 : Node),
      List.foldlM (processRefinement md schema service) (Node.group none "and" ns0) refs
        = some g2 → ∃ cs, g2 = Node.group none "and" cs := by
    clear h
    induction refs with
    | nil =>
      intro ns0 g2 hf
      simp only [List.foldlM_nil, pure, Option.some.injEq] at hf
      exact ⟨ns0, hf.symm⟩
    | cons r rest ih =>
      intro ns0 g2 hf
      rw [List.foldlM_cons] at hf
      cases hp : processRefinement md schema service (Node.group none "and" ns0) r with
      | none =>
        rw [hp] at hf
        simp at hf
      | some q2 =>
        rw [hp] at hf
        obtain ⟨ns1, rfl⟩ := processRefinement_shape hp
        simp only [Option.bind_eq_bind, Option.some_bind] at hf
        exact ih ns1 g2 hf
  exact H [] g h

/-- Appending a node into the (found-or-created) service group extends that
group's child list by exactly that node and disturbs nothing else the
`serviceNodes` projection sees. -/
theorem serviceNodes_update_push (l : Option String) (lop : String) (ns : List Node)
    (sv : String) (hsv : sv ≠ "") (g : Node) :
    serviceNodes
        (Node.group l lop (updateGroupChildren ns sv "and" (fun sn => pushChild sn g))) sv
      = serviceNodes (Node.group l lop ns) sv ++ [g] := by
  cases hf : findLabeled ns sv with
  | some x =>
    obtain ⟨xop, xcs, rfl⟩ := nodeLabel_eq_some (findLabeled_label hf)
    have hy : nodeLabel (pushChild (Node.group (some sv) xop xcs) g) = some sv := rfl
    have hfind := findLabeled_setLastLabeled hf hy
    simp only [pushChild] at hfind
    simp only [updateGroupChildren, hf, serviceNodes, pushChild, hfind]
  | none =>
    have hy : nodeLabel (pushChild (getEmptyGroupNode (some sv) "and") g) = some sv := by
      simp [getEmptyGroupNode, pushChild, nodeLabel, hsv]
    simp only [updateGroupChildren, hf]
    have happ := findLabeled_append ns (pushChild (getEmptyGroupNode (some sv) "and") g) sv
    rw [if_pos hy] at happ
    simp only [serviceNodes, happ, hf]
    simp [getEmptyGroupNode, pushChild, hsv]

/-- C4.  Two successful sequential `addRefinements` calls on a group-rooted
request each append one brand-new unlabeled AND-group under the
service-labeled group, never merging into an existing container: afterwards
the service group's children are its original children followed by the two
batch containers, each holding exactly the refinements of its own call. -/
theorem c4_addRefinements_appends_fresh_refinement_group
    (l : Option String) (lop : String) (ns : List Node)
    (refs1 refs2 : List Refinement) (md : Metadata) (rt : String)
    (q1 q2 : Node)
    (h1 : addRefinements ⟨Node.group l lop ns⟩ refs1 md rt = some ⟨q1⟩)
    (h2 : addRefinements ⟨q1⟩ refs2 md rt = some ⟨q2⟩) :
    ∃ cs1 cs2,
      refinementGroupOf md (schemaOf rt) (serviceOf rt) refs1
        = some (Node.group none "and" cs1)
      ∧ refinementGroupOf md (schemaOf rt) (serviceOf rt) refs2
        = some (Node.group none "and" cs2)
      ∧ serviceNodes q2 (serviceOf rt)
        = serviceNodes (Node.group l lop ns) (serviceOf rt)
          ++ [Node.group none "and" cs1, Node.group none "and" cs2] := by
  simp only [addRefinements] at h1
  rcases Option.map_eq_some'.mp h1 with ⟨g1, hg1, hb1⟩
  obtain ⟨cs1, rfl⟩ := refinementGroupOf_shape hg1
  have hq1 : q1 = Node.group l lop (updateGroupChildren ns (serviceOf rt) "and"
      (fun sn => pushChild sn (Node.group none "and" cs1))) := by
    injection hb1 with hh
    exact hh.symm
  subst hq1
  simp only [addRefinements] at h2
  rcases Option.map_eq_some'.mp h2 with ⟨g2, hg2, hb2⟩
  obtain ⟨cs2, rfl⟩ := refinementGroupOf_shape hg2
  have hq2 : q2 = Node.group l lop
      (updateGroupChildren
        (updateGroupChildren ns (serviceOf rt) "and"
          (fun sn => pushChild sn (Node.group none "and" cs1)))
        (serviceOf rt) "and"
        (fun sn => pushChild sn (Node.group none "and" cs2))) := by
    injection hb2 with hh
    exact hh.symm
  subst hq2
  refine ⟨cs1, cs2, hg1, hg2, ?_⟩
  rw [serviceNodes_update_push _ _ _ _ (serviceOf_ne_empty rt),
    serviceNodes_update_push _ _ _ _ (serviceOf_ne_empty rt)]
  simp

/-- Witness for `c4_addRefinements_appends_fresh_refinement_group`: two
one-refinement batches on an empty group root land in two separate fresh
AND-groups under the `text` service group. -/
theorem c4_witness :
    ∃ cs1 cs2,
      refinementGroupOf mdEmpty (schemaOf "entry") (serviceOf "entry")
          [⟨"exptl.method", ["X"]⟩] = some (Node.group none "and" cs1)
      ∧ refinementGroupOf mdEmpty (schemaOf "entry") (serviceOf "entry")
          [⟨"exptl.method", ["Y"]⟩] = some (Node.group none "and" cs2)
      ∧ serviceNodes
          (Node.group none "and"
            [Node.group (some "text") "and"
              [Node.group none "and"
                [Node.group (some "exptl.method") "or"
                  [Node.terminal "text" ⟨"exptl.method", "exact_match", Value.str "X"⟩]],
               Node.group none "and"
                [Node.group (some "exptl.method") "or"
                  [Node.terminal "text" ⟨"exptl.method", "exact_match", Value.str "Y"⟩]]]])
          (serviceOf "entry")
        = serviceNodes (Node.group none "and" []) (serviceOf "entry")
          ++ [Node.group none "and" cs1, Node.group none "and" cs2] := by
  exact c4_addRefinements_appends_fresh_refinement_group none "and" []
    [⟨"exptl.method", ["X"]⟩] [⟨"exptl.method", ["Y"]⟩] mdEmpty "entry"
    (Node.group none "and"
      [Node.group (some "text") "and"
        [Node.group none "and"
          [Node.group (some "exptl.method") "or"
            [Node.terminal "text" ⟨"exptl.method", "exact_match", Value.str "X"⟩]]]])
    (Node.group none "and"
      [Node.group (some "text") "and"
        [Node.group none "and"
          [Node.group (some "exptl.method") "or"
            [Node.terminal "text" ⟨"exptl.method", "exact_match", Value.str "X"⟩]],
         Node.group none "and"
          [Node.group (some "exptl.method") "or"
            [Node.terminal "text" ⟨"exptl.method", "exact_match", Value.str "Y"⟩]]]])
    rfl rfl

/-- Reading under a right-append: the appended element is only seen at the
old length. -/
theorem getD_snoc {α : Type} (l : List α) (a : α) (i : Nat) (d : α) :
    (l ++ [a]).getD i d = if i = l.length then a else l.getD i d := by
  induction l generalizing i with
  | nil =>
    cases i with
    | zero => rfl
    | succ j => simp [List.getD]
  | cons x l ih =>
    cases i with
    | zero => simp
    | succ j =>
      simp only [List.cons_append, List.getD_cons_succ, ih, List.length_cons]
      by_cases hj : j = l.length
      · simp [hj]
      · rw [if_neg hj, if_neg (by omega)]

/-- Writing at one index does not change reads at another. -/
theorem getD_set_ne {α : Type} (l : List α) (i j : Nat) (a : α) (d : α)
    (hij : i ≠ j) : (l.set i a).getD j d = l.getD j d := by
  induction l generalizing i j with
  | nil => rfl
  | cons x l ih =>
    cases i with
    | zero =>
      cases j with
      | zero => exact absurd rfl hij
      | succ j2 => rfl
    | succ i2 =>
      cases j with
      | zero => rfl
      | succ j2 =>
        simp only [List.set_cons_succ, List.getD_cons_succ]
        exact ih i2 j2 (by omega)

/-- C6, counterexample.  With the facet-filter template holding a reference
to its `parameters` object, the two per-value copies made by
`setFacetFilterAttributeNode` are NOT deep-independent: mutating the nested
`parameters.attribute` field through the first copy changes what the second
copy's `parameters.attribute` reads (from `a` to `mutated`), because the
shallow `Object.assign` copy shares the nested object. -/
theorem c6_facet_filter_copy_not_deep_cex :
    JsHeap.readField2 (facetFilterCopyPair facetFilterDemoHeap 1).1
        (facetFilterCopyPair facetFilterDemoHeap 1).2.2 "parameters" "attribute"
      = some (JsVal.str "a")
    ∧ JsHeap.readField2
        (JsHeap.setField2 (facetFilterCopyPair facetFilterDemoHeap 1).1
          (facetFilterCopyPair facetFilterDemoHeap 1).2.1
          "parameters" "attribute" (JsVal.str "mutated"))
        (facetFilterCopyPair facetFilterDemoHeap 1).2.2 "parameters" "attribute"
      = some (JsVal.str "mutated") := by
  exact ⟨rfl, rfl⟩

/-- C6, amended.  The facet-filter copies attached to the pair-groups are
SHALLOW (`Object.assign`) copies of the shared template: the two copies are
distinct objects carrying the same fields, and mutating a TOP-LEVEL field of
the first copy does not alter anything the second copy shows — but nested
objects (such as `parameters`) remain shared, as the counterexample above
shows. -/
theorem c6_facet_filter_shallow_copy (h : JsHeap) (ff : Nat) (k k2 : String)
    (v : JsVal) :
    (facetFilterCopyPair h ff).2.1 ≠ (facetFilterCopyPair h ff).2.2
    ∧ JsHeap.readField (facetFilterCopyPair h ff).1
        (facetFilterCopyPair h ff).2.1 k
      = JsHeap.readField (facetFilterCopyPair h ff).1
        (facetFilterCopyPair h ff).2.2 k
    ∧ JsHeap.readField
        (JsHeap.setField (facetFilterCopyPair h ff).1
          (facetFilterCopyPair h ff).2.1 k v)
        (facetFilterCopyPair h ff).2.2 k2
      = JsHeap.readField (facetFilterCopyPair h ff).1
        (facetFilterCopyPair h ff).2.2 k2 := by
  have ho : JsHeap.get ⟨h.objs ++ [JsHeap.get h ff]⟩ ff = JsHeap.get h ff := by
    show (h.objs ++ [JsHeap.get h ff]).getD ff [] = JsHeap.get h ff
    rw [getD_snoc]
    split
    · rfl
    · rfl
  have hpair : facetFilterCopyPair h ff
      = (⟨(h.objs ++ [JsHeap.get h ff]) ++ [JsHeap.get h ff]⟩,
         h.objs.length, h.objs.length + 1) := by
    simp [facetFilterCopyPair, objectAssignEmpty, JsHeap.alloc, ho]
  rw [hpair]
  have e1 : ((h.objs ++ [JsHeap.get h ff]) ++ [JsHeap.get h ff]).getD
      h.objs.length [] = JsHeap.get h ff := by
    rw [getD_snoc, if_neg (by simp), getD_snoc, if_pos rfl]
  have e2 : ((h.objs ++ [JsHeap.get h ff]) ++ [JsHeap.get h ff]).getD
      (h.objs.length + 1) [] = JsHeap.get h ff := by
    rw [getD_snoc, if_pos (by simp)]
  refine ⟨by simp, ?_, ?_⟩
  · show getKey (((h.objs ++ [JsHeap.get h ff]) ++ [JsHeap.get h ff]).getD
        h.objs.length []) k
      = getKey (((h.objs ++ [JsHeap.get h ff]) ++ [JsHeap.get h ff]).getD
        (h.objs.length + 1) []) k
    rw [e1, e2]
  · show getKey ((((h.objs ++ [JsHeap.get h ff]) ++ [JsHeap.get h ff]).set
        h.objs.length _).getD (h.objs.length + 1) []) k2
      = getKey (((h.objs ++ [JsHeap.get h ff]) ++ [JsHeap.get h ff]).getD
        (h.objs.length + 1) []) k2
    rw [getD_set_ne _ _ _ _ _ (by omega)]
